import Mathlib

/-!
Verification development for the NK-landscape model (`nk-landscape.py`).

The Python class `NKLandscape` is shallowly embedded below.  A numpy array
that the program may fill with non-integer floats becomes `List (List ℚ)`;
the dependency matrix, which the constructor always pipes through
`astype(int)` and the default construction builds from 0/1 entries, becomes
`List (List ℤ)`; solutions are `List ℤ`; a method that can raise becomes a
function into `Except PyErr _`.  Randomness (numpy's `random.uniform` and
`random.randint`) is an external collaborator and is passed in as an
explicit generator function.

Source-fidelity notes recorded where relevant:
* `_check_dependency_matrix` (source lines 74-88): its fourth test,
  `if ((K == 0) and ...)`, reads a bare name `K` that is not defined in the
  method, in the module, or in builtins, so the moment the first three
  tests pass, Python raises `NameError`.  The K=0 test and the row-sum
  test after it are therefore dead code; the embedding mirrors this by
  returning `PyErr.nameError` on that path and taking no `K` argument at
  all, since the instance's `self.K` is never consulted.
* `__init__` (line 49): a supplied matrix is coerced with `astype(int)`
  (truncation toward zero) before it is validated.
* `set_dependency_matrix` (lines 109-111): assigns the new matrix first
  and validates afterwards.
-/

namespace NKSpec

/-- Python exceptions that this program can raise. -/
inductive PyErr where
  | valueError : String → PyErr
  | nameError : String → PyErr
  | typeError : String → PyErr
  | indexError : PyErr
deriving DecidableEq

instance exceptDecidableEq {ε α : Type} [DecidableEq ε] [DecidableEq α] :
    DecidableEq (Except ε α)
  | Except.error x, Except.error y =>
    if h : x = y then Decidable.isTrue (congrArg Except.error h)
    else Decidable.isFalse (fun hc => h (Except.error.inj hc))
  | Except.error _, Except.ok _ => Decidable.isFalse (fun hc => Except.noConfusion hc)
  | Except.ok _, Except.error _ => Decidable.isFalse (fun hc => Except.noConfusion hc)
  | Except.ok x, Except.ok y =>
    if h : x = y then Decidable.isTrue (congrArg Except.ok h)
    else Decidable.isFalse (fun hc => h (Except.ok.inj hc))

/-- A numpy 2-d float array as supplied by the caller (rows of rationals:
every Python float literal appearing in this program is a rational). -/
abbrev MatF := List (List ℚ)

/-- A numpy 2-d integer array, as a list of rows. -/
abbrev MatZ := List (List ℤ)

/-- Python `int(q)` / numpy `astype(int)` on one value: truncation toward
zero.  For `q = num/den` in lowest terms with `den > 0`, that is exactly
T-division of `num` by `den`. -/
def pyIntCast (q : ℚ) : ℤ := Int.tdiv q.num q.den

/-- numpy `astype(int)` on a whole supplied matrix (source line 49). -/
def astypeInt (m : MatF) : MatZ := m.map (fun r => r.map pyIntCast)

/-- Build an `n × m` integer matrix from an entry function (row-major). -/
def mkMatZ (n m : ℕ) (f : ℕ → ℕ → ℤ) : MatZ :=
  (List.range n).map (fun i => (List.range m).map (f i))

/-- Build an `n × m` rational matrix from an entry function (row-major). -/
def mkMatQ (n m : ℕ) (f : ℕ → ℕ → ℚ) : MatF :=
  (List.range n).map (fun i => (List.range m).map (f i))

/-- `np.identity(N)`.  numpy produces float entries `1.0 / 0.0`; the values
are integers and line 65 casts the finished matrix with `astype(int)`, so
the construction is carried out directly over `ℤ`. -/
def np_identity (N : ℕ) : MatZ := mkMatZ N N (fun i j => if i = j then 1 else 0)

/-- `np.eye(N, k=k)`: ones on the k-th diagonal, `j = i + k`. -/
def np_eye (N : ℕ) (k : ℤ) : MatZ :=
  mkMatZ N N (fun i j => if (j : ℤ) = (i : ℤ) + k then 1 else 0)

/-- Elementwise `+` of two same-shape matrices (numpy broadcasting is not
needed: the source only ever adds `N × N` matrices). -/
def matAdd (A B : MatZ) : MatZ := List.zipWith (fun r s => List.zipWith (· + ·) r s) A B

/-- The landscape object: the four attributes set by `__init__`. -/
structure Landscape where
  N : ℕ
  K : ℤ
  dependency_matrix : MatZ
  fitness_mapping : MatF
deriving DecidableEq

/-- `_construct_sequential_dependency_matrix` (source lines 58-65):
start from the identity; for `offset` in `range(K)` add
`np.eye(N, k=offset+1) + np.eye(N, k=-(N-(offset+1)))`; `astype(int)` at
the end is the identity here because the whole computation already lives
in `ℤ`. -/
def construct_sequential_dependency_matrix (N : ℕ) (K : ℤ) : MatZ :=
  let base := np_identity N
  if 0 < K then
    (List.range K.toNat).foldl
      (fun acc (offset : ℕ) =>
        matAdd acc (matAdd (np_eye N ((offset : ℤ) + 1))
          (np_eye N (-((N : ℤ) - ((offset : ℤ) + 1)))))) base
  else base

/-- `_binary_to_decimal` (source lines 67-72):
`decimal = sum over i of binary[len(binary) - i - 1] * 2**i`. -/
def binary_to_decimal (binary : List ℤ) : ℤ :=
  ((List.range binary.length).map
    (fun i => binary.getD (binary.length - i - 1) 0 * 2 ^ i)).sum

/-- `np.trace`: sum of the diagonal (only ever evaluated on a square
matrix, after the shape test has passed). -/
def traceZ (m : MatZ) : ℤ :=
  ((List.range m.length).map (fun i => (m.getD i []).getD i 0)).sum

/-- `_check_dependency_matrix` (source lines 74-88).  The first three tests
(shape, binary entries, trace) behave as written.  The fourth test,
`if ((K == 0) and (self.dependency_matrix.sum() != self.N))`, evaluates the
bare name `K`, which is undefined in every enclosing scope, so reaching it
raises `NameError`; that K=0 test and the row-sum test after it are
unreachable.  Consequently this function takes no `K` argument: the
instance's `self.K` is never consulted. -/
def check_dependency_matrix (N : ℕ) (dm : MatZ) : Except PyErr Unit :=
  if ¬ (dm.length = N ∧ ∀ r ∈ dm, r.length = N) then
    Except.error (PyErr.valueError "The dependency matrix must be of shape (N, N)")
  else if ¬ (∀ r ∈ dm, ∀ x ∈ r, x = 0 ∨ x = 1) then
    Except.error (PyErr.valueError "The dependency matrix must only contain binary values")
  else if ¬ (traceZ dm = (N : ℤ)) then
    Except.error (PyErr.valueError "The diagonal of the dependency matrix must be all ones")
  else
    Except.error (PyErr.nameError "name K is not defined")

/-- `__init__` (source lines 35-56).  `rng i j` stands for the numpy
uniform(-1, 1) draw used for entry `(i, j)` of a default fitness mapping.
When `fitness_mapping` is omitted the source builds a
`(N, 2**(K+1))`-shaped random array; `2**(K+1)` with `K + 1 < 0` is a
Python float, which numpy rejects as a shape with `TypeError`. -/
def init (N? : Option ℕ) (K? : Option ℤ) (dependency_matrix? : Option MatF)
    (fitness_mapping? : Option MatF) (rng : ℕ → ℕ → ℚ) : Except PyErr Landscape :=
  match N?, K? with
  | none, _ => Except.error (PyErr.valueError "N must be provided")
  | some _, none => Except.error (PyErr.valueError "K must be provided")
  | some N, some K =>
    if (N : ℤ) ≤ K then Except.error (PyErr.valueError "K must be less than N")
    else
      match (match dependency_matrix? with
             | none => Except.ok (construct_sequential_dependency_matrix N K)
             | some dm =>
               let dmi := astypeInt dm
               match check_dependency_matrix N dmi with
               | Except.error e => Except.error e
               | Except.ok _ => Except.ok dmi) with
      | Except.error e => Except.error e
      | Except.ok dmi =>
        match fitness_mapping? with
        | some fm => Except.ok ⟨N, K, dmi, fm⟩
        | none =>
          if K + 1 < 0 then
            Except.error (PyErr.typeError "float object cannot be interpreted as an integer")
          else Except.ok ⟨N, K, dmi, mkMatQ N (2 ^ (K + 1).toNat) rng⟩

/-- `generate_solutions` (source lines 90-93).  `randint2 r c` stands for
numpy's `randint(2)` draw at position `(r, c)`; numpy raises `ValueError`
for a negative dimension in `size=(num, N)`. -/
def generate_solutions (N : ℕ) (num? : Option ℤ) (randint2 : ℕ → ℕ → Fin 2) :
    Except PyErr (List (List ℤ)) :=
  match num? with
  | none => Except.error (PyErr.valueError "The number of solutions must be specified")
  | some num =>
    if num < 0 then Except.error (PyErr.valueError "negative dimensions are not allowed")
    else Except.ok ((List.range num.toNat).map
      (fun r => (List.range N).map (fun c => (((randint2 r c : Fin 2) : ℕ) : ℤ))))

/-- `np.argwhere(self.dependency_matrix[i, :] == 1).T[0]` (source line 98):
the ascending list of column indices holding a 1. -/
def dependency_indicies (row : List ℤ) : List ℕ :=
  (List.range row.length).filter (fun j => decide (row.getD j 0 = 1))

/-- `np.roll(d, -np.argwhere(d == i)[0])` (source line 99): rotate the index
list left so that `i` (whose presence the caller has checked) comes first. -/
def rolled_indicies (deps : List ℕ) (i : ℕ) : List ℕ :=
  deps.drop (deps.indexOf i) ++ deps.take (deps.indexOf i)

/-- `solution[rolled_dependency_indicies]` (source line 102): numpy fancy
indexing; an index at or beyond the end raises `IndexError`. -/
def gather (sol : List ℤ) : List ℕ → Except PyErr (List ℤ)
  | [] => Except.ok []
  | j :: rest =>
    if j < sol.length then
      match gather sol rest with
      | Except.error e => Except.error e
      | Except.ok tl => Except.ok (sol.getD j 0 :: tl)
    else Except.error PyErr.indexError

/-- numpy 1-d integer indexing `row[d]`, including negative-index
wraparound; out of range raises `IndexError`. -/
def np_getitem (row : List ℚ) (d : ℤ) : Except PyErr ℚ :=
  if 0 ≤ d then
    if d.toNat < row.length then Except.ok (row.getD d.toNat 0)
    else Except.error PyErr.indexError
  else
    if (-d).toNat ≤ row.length then Except.ok (row.getD (row.length - (-d).toNat) 0)
    else Except.error PyErr.indexError

/-- Source lines 98-103 for one position `i`: extract row `i`'s dependency
indices, roll them so `i` is first (an absent `i` makes `argwhere(...)[0]`
raise `IndexError`), gather the solution bits and convert to decimal. -/
def row_decimal (dm : MatZ) (sol : List ℤ) (i : ℕ) : Except PyErr ℤ :=
  if i < dm.length then
    let deps := dependency_indicies (dm.getD i [])
    if i ∈ deps then Except.map binary_to_decimal (gather sol (rolled_indicies deps i))
    else Except.error PyErr.indexError
  else Except.error PyErr.indexError

/-- Source line 105: `self.fitness_mapping[i, decimal]`. -/
def calc_contrib (dm : MatZ) (fm : MatF) (sol : List ℤ) (i : ℕ) : Except PyErr ℚ :=
  Except.bind (row_decimal dm sol i) (fun d =>
    if i < fm.length then np_getitem (fm.getD i []) d
    else Except.error PyErr.indexError)

/-- The `for i in range(self.N)` accumulation loop of `calculate_fitness`. -/
def calc_loop (dm : MatZ) (fm : MatF) (sol : List ℤ) : List ℕ → ℚ → Except PyErr ℚ
  | [], acc => Except.ok acc
  | i :: rest, acc =>
    match calc_contrib dm fm sol i with
    | Except.error e => Except.error e
    | Except.ok c => calc_loop dm fm sol rest (acc + c)

/-- `calculate_fitness` (source lines 95-107).  The method reads
`self.N`, `self.dependency_matrix`, `self.fitness_mapping` and the passed
solution, writes no attribute, and returns the accumulated sum; it is a
pure function of those inputs. -/
def calculate_fitness (L : Landscape) (solution : List ℤ) : Except PyErr ℚ :=
  calc_loop L.dependency_matrix L.fitness_mapping solution (List.range L.N) 0

/-- `set_dependency_matrix` (source lines 109-111): the new matrix is
assigned to the attribute first, and only then validated, so the returned
state holds the new matrix even when validation fails.  (The setter, unlike
`__init__`, performs no `astype(int)`; it is modelled here for
integer-valued arrays, which every claim about it uses.) -/
def set_dependency_matrix (L : Landscape) (dm : MatZ) : Landscape × Except PyErr Unit :=
  ({ L with dependency_matrix := dm }, check_dependency_matrix L.N dm)

/-- `get_dependency_matrix` (source lines 113-114). -/
def get_dependency_matrix (L : Landscape) : MatZ := L.dependency_matrix

/-- `set_fitness_mapping` (source lines 116-117): no validation at all. -/
def set_fitness_mapping (L : Landscape) (fm : MatF) : Landscape :=
  { L with fitness_mapping := fm }

/-- `get_fitness_mapping` (source lines 119-120). -/
def get_fitness_mapping (L : Landscape) : MatF := L.fitness_mapping

/-- The all-zero stand-in for the uniform(-1,1) generator, used for
concrete instances. -/
def rngZero : ℕ → ℕ → ℚ := fun _ _ => 0

/-- The landscape of the spec's concrete scenario: N=4, K=0, identity
dependency matrix (the default for K=0), and the supplied fitness mapping
rewarding bit pattern 1,0,1,0. -/
def cL : Landscape := ⟨4, 0, np_identity 4, [[0, 1], [1, 0], [0, 1], [1, 0]]⟩

/-- A valid landscape obtained from a successful construction: N=2, K=0,
default (identity) dependency matrix, all-zero fitness mapping. -/
def LZ : Landscape := ⟨2, 0, np_identity 2, [[0, 0], [0, 0]]⟩

/-- The dependency-matrix validation rules as claim C6 lists them: shape
(N, N), binary entries, trace N (all-ones diagonal), every row summing to
K+1, and equality with the identity matrix when K = 0.  They correspond to
the tests of `_check_dependency_matrix` (source lines 74-88), with the K=0
total-sum test strengthened to the identity-matrix statement it encodes. -/
def validation_rules (N : ℕ) (K : ℤ) (M : MatZ) : Prop :=
  M.length = N ∧ (∀ r ∈ M, r.length = N) ∧
  (∀ r ∈ M, ∀ x ∈ r, x = 0 ∨ x = 1) ∧
  traceZ M = (N : ℤ) ∧
  (∀ r ∈ M, r.sum = K + 1) ∧
  (K = 0 → M = np_identity N)

/-- The spec's unsigned most-significant-bit-first reading of a bit
string: fold from the left, doubling the accumulator at each bit. -/
def msb_first_value (bits : List ℕ) : ℕ := bits.foldl (fun a b => 2 * a + b) 0

/-- The spec's ordered dependency pattern for position `i` (section 4.1):
the ascending dependency indices of the row, cyclically rotated so that
index `i` becomes the first element. -/
def spec_rotated (row : List ℤ) (i : ℕ) : List ℕ :=
  rolled_indicies (dependency_indicies row) i

/-- The index `d_i` as the spec describes it: the unsigned MSB-first value
of the substring gathered at row `i`'s dependency indices rotated so that
`i` is first. -/
def spec_digit (dm : MatZ) (sol : List ℤ) (i : ℕ) : ℕ :=
  msb_first_value ((spec_rotated (dm.getD i []) i).map (fun j => (sol.getD j 0).toNat))

/-- The invariants claims C2 and C10 assume of a valid landscape: K ≥ 0;
the stored dependency matrix satisfies the validation rules (shape, binary
entries, all-ones diagonal, row sums K+1); the fitness mapping has shape
(N, 2^(K+1)). -/
abbrev ValidLandscape (L : Landscape) : Prop :=
  0 ≤ L.K ∧
  L.dependency_matrix.length = L.N ∧
  (∀ r ∈ L.dependency_matrix, r.length = L.N) ∧
  (∀ r ∈ L.dependency_matrix, ∀ x ∈ r, x = 0 ∨ x = 1) ∧
  (∀ i ∈ List.range L.N, (L.dependency_matrix.getD i []).getD i 0 = 1) ∧
  (∀ r ∈ L.dependency_matrix, r.sum = L.K + 1) ∧
  L.fitness_mapping.length = L.N ∧
  (∀ r ∈ L.fitness_mapping, r.length = 2 ^ (L.K + 1).toNat)

/-! ## Helper lemmas about list-backed matrices -/

lemma getD_map_range {α : Type} (n : ℕ) (g : ℕ → α) (d : α) (i : ℕ) (h : i < n) :
    ((List.range n).map g).getD i d = g i := by
  rw [List.getD_eq_getElem?_getD, List.getElem?_map, List.getElem?_range h]
  rfl

lemma zipWith_map_same {α β γ δ : Type} (h : β → γ → δ) (f : α → β) (g : α → γ) :
    ∀ l : List α, List.zipWith h (l.map f) (l.map g) = l.map (fun x => h (f x) (g x))
  | [] => rfl
  | a :: t => by
    simp only [List.map_cons, List.zipWith_cons_cons, zipWith_map_same h f g t]

lemma mkMatZ_length (n m : ℕ) (f : ℕ → ℕ → ℤ) : (mkMatZ n m f).length = n := by
  simp [mkMatZ]

lemma mkMatZ_mem {n m : ℕ} {f : ℕ → ℕ → ℤ} {r : List ℤ} (hr : r ∈ mkMatZ n m f) :
    ∃ i, i < n ∧ r = (List.range m).map (f i) := by
  simp only [mkMatZ, List.mem_map, List.mem_range] at hr
  obtain ⟨i, hi, rfl⟩ := hr
  exact ⟨i, hi, rfl⟩

lemma mkMatZ_entry (n m : ℕ) (f : ℕ → ℕ → ℤ) (i j : ℕ) (hi : i < n) (hj : j < m) :
    ((mkMatZ n m f).getD i []).getD j 0 = f i j := by
  unfold mkMatZ
  rw [getD_map_range n _ [] i hi, getD_map_range m _ 0 j hj]

lemma matAdd_mkMatZ (n m : ℕ) (f g : ℕ → ℕ → ℤ) :
    matAdd (mkMatZ n m f) (mkMatZ n m g) = mkMatZ n m (fun i j => f i j + g i j) := by
  unfold matAdd mkMatZ
  rw [zipWith_map_same]
  apply List.map_congr_left
  intro i _
  rw [zipWith_map_same]

lemma mkMatZ_ext (n m : ℕ) (f g : ℕ → ℕ → ℤ)
    (h : ∀ i, i < n → ∀ j, j < m → f i j = g i j) : mkMatZ n m f = mkMatZ n m g := by
  unfold mkMatZ
  apply List.map_congr_left
  intro i hi
  apply List.map_congr_left
  intro j hj
  exact h i (List.mem_range.mp hi) j (List.mem_range.mp hj)

lemma sum_map_add {α : Type} (l : List α) (f g : α → ℤ) :
    (l.map (fun x => f x + g x)).sum = (l.map f).sum + (l.map g).sum := by
  induction l with
  | nil => simp
  | cons a t ih =>
    simp only [List.map_cons, List.sum_cons, ih]
    ring

lemma list_sum_range_eq (n : ℕ) (f : ℕ → ℤ) :
    ((List.range n).map f).sum = ∑ j in Finset.range n, f j := by
  induction n with
  | zero => simp
  | succ n ih =>
    rw [List.range_succ, List.map_append, List.sum_append, Finset.sum_range_succ, ih]
    simp

lemma sum_map_one (n : ℕ) : ((List.range n).map (fun _ => (1 : ℤ))).sum = n := by
  induction n with
  | zero => simp
  | succ n ih =>
    rw [List.range_succ, List.map_append, List.sum_append]
    simp [ih]

/-! ## The sequential dependency matrix in closed form -/

lemma seq_fold (N : ℕ) : ∀ k : ℕ,
    (List.range k).foldl
      (fun acc (offset : ℕ) =>
        matAdd acc (matAdd (np_eye N ((offset : ℤ) + 1))
          (np_eye N (-((N : ℤ) - ((offset : ℤ) + 1)))))) (np_identity N)
    = mkMatZ N N (fun i j => (if i = j then 1 else 0) +
        ((List.range k).map (fun (o : ℕ) =>
          (if (j : ℤ) = (i : ℤ) + ((o : ℤ) + 1) then (1 : ℤ) else 0) +
          (if (j : ℤ) = (i : ℤ) + (-((N : ℤ) - ((o : ℤ) + 1))) then 1 else 0))).sum)
  | 0 => by
    simp [np_identity]
  | (k + 1) => by
    rw [List.range_succ, List.foldl_append, seq_fold N k]
    simp only [List.foldl_cons, List.foldl_nil]
    unfold np_eye
    rw [matAdd_mkMatZ, matAdd_mkMatZ]
    apply mkMatZ_ext
    intro i _ j _
    rw [List.map_append, List.sum_append]
    simp only [List.map_cons, List.map_nil, List.sum_cons, List.sum_nil, add_zero]
    ring

lemma sum_ind_range (k : ℕ) (c : ℤ) :
    ((List.range k).map (fun (o : ℕ) => if c = (o : ℤ) + 1 then (1 : ℤ) else 0)).sum
      = if 1 ≤ c ∧ c ≤ (k : ℤ) then 1 else 0 := by
  induction k with
  | zero =>
    simp only [List.range_zero, List.map_nil, List.sum_nil]
    rw [if_neg (by omega)]
  | succ k ih =>
    rw [List.range_succ, List.map_append, List.sum_append, ih]
    simp only [List.map_cons, List.map_nil, List.sum_cons, List.sum_nil, add_zero]
    split_ifs <;> omega

lemma mod_dist (N i j : ℕ) (hi : i < N) (hj : j < N) :
    (j + N - i) % N = if i ≤ j then j - i else j + N - i := by
  rcases le_or_lt i j with h | h
  · rw [if_pos h]
    have e : j + N - i = (j - i) + N := by omega
    rw [e, Nat.add_mod_right]
    exact Nat.mod_eq_of_lt (by omega)
  · rw [if_neg (by omega)]
    exact Nat.mod_eq_of_lt (by omega)

lemma seq_entry_closed (N k : ℕ) (hk : k < N) (i j : ℕ) (hi : i < N) (hj : j < N) :
    ((if i = j then (1 : ℤ) else 0) +
      ((List.range k).map (fun (o : ℕ) =>
        (if (j : ℤ) = (i : ℤ) + ((o : ℤ) + 1) then (1 : ℤ) else 0) +
        (if (j : ℤ) = (i : ℤ) + (-((N : ℤ) - ((o : ℤ) + 1))) then 1 else 0))).sum)
    = if (j + N - i) % N ≤ k then 1 else 0 := by
  rw [sum_map_add]
  have h1 : ((List.range k).map
      (fun (o : ℕ) => if (j : ℤ) = (i : ℤ) + ((o : ℤ) + 1) then (1 : ℤ) else 0))
      = (List.range k).map
          (fun (o : ℕ) => if (j : ℤ) - (i : ℤ) = (o : ℤ) + 1 then (1 : ℤ) else 0) := by
    apply List.map_congr_left
    intro o _
    split_ifs <;> omega
  have h2 : ((List.range k).map
      (fun (o : ℕ) => if (j : ℤ) = (i : ℤ) + (-((N : ℤ) - ((o : ℤ) + 1))) then (1 : ℤ) else 0))
      = (List.range k).map
          (fun (o : ℕ) => if (j : ℤ) - (i : ℤ) + (N : ℤ) = (o : ℤ) + 1 then (1 : ℤ) else 0) := by
    apply List.map_congr_left
    intro o _
    split_ifs <;> omega
  rw [h1, h2, sum_ind_range, sum_ind_range, mod_dist N i j hi hj]
  split_ifs <;> omega

lemma construct_entry (N : ℕ) (K : ℤ) (h0 : 0 ≤ K) (hK : K < N) :
    construct_sequential_dependency_matrix N K
      = mkMatZ N N (fun i j => if (j + N - i) % N ≤ K.toNat then 1 else 0) := by
  have hNpos : 0 < N := by omega
  unfold construct_sequential_dependency_matrix
  rcases eq_or_lt_of_le h0 with h | h
  · rw [if_neg (by omega)]
    unfold np_identity
    apply mkMatZ_ext
    intro i hi j hj
    rw [mod_dist N i j hi hj]
    split_ifs <;> omega
  · rw [if_pos h, seq_fold N K.toNat]
    apply mkMatZ_ext
    intro i hi j hj
    exact seq_entry_closed N K.toNat (by omega) i j hi hj

lemma filter_mod_card (N i k : ℕ) (hi : i < N) (hk : k < N) :
    ((Finset.range N).filter (fun j => (j + N - i) % N ≤ k)).card = k + 1 := by
  rcases le_or_lt (i + k + 1) N with hcase | hcase
  · have hset : (Finset.range N).filter (fun j => (j + N - i) % N ≤ k)
        = Finset.Ico i (i + k + 1) := by
      ext j
      simp only [Finset.mem_filter, Finset.mem_range, Finset.mem_Ico]
      constructor
      · rintro ⟨hj, hcond⟩
        rw [mod_dist N i j hi hj] at hcond
        split_ifs at hcond <;> omega
      · intro h
        have hj : j < N := by omega
        refine ⟨hj, ?_⟩
        rw [mod_dist N i j hi hj]
        split_ifs <;> omega
    rw [hset, Nat.card_Ico]
    omega
  · have hset : (Finset.range N).filter (fun j => (j + N - i) % N ≤ k)
        = Finset.Ico i N ∪ Finset.Ico 0 (i + k + 1 - N) := by
      ext j
      simp only [Finset.mem_filter, Finset.mem_range, Finset.mem_union, Finset.mem_Ico]
      constructor
      · rintro ⟨hj, hcond⟩
        rw [mod_dist N i j hi hj] at hcond
        split_ifs at hcond <;> omega
      · intro h
        have hj : j < N := by omega
        refine ⟨hj, ?_⟩
        rw [mod_dist N i j hi hj]
        split_ifs <;> omega
    rw [hset, Finset.card_union_of_disjoint, Nat.card_Ico, Nat.card_Ico]
    · omega
    · simp only [Finset.disjoint_left, Finset.mem_Ico]
      rintro a ⟨h1, h2⟩ ⟨h3, h4⟩
      omega

/-! ## Binary-to-decimal conversion and the fitness loop -/

lemma getD_mem {α : Type} (l : List α) (j : ℕ) (d : α) (h : j < l.length) : l.getD j d ∈ l := by
  rw [List.getD_eq_getElem?_getD, List.getElem?_eq_getElem h]
  exact List.getElem_mem h

lemma btd_cons (b : ℤ) (t : List ℤ) :
    binary_to_decimal (b :: t) = b * 2 ^ t.length + binary_to_decimal t := by
  unfold binary_to_decimal
  simp only [List.length_cons]
  rw [List.range_succ, List.map_append, List.sum_append]
  have h1 : ∀ i ∈ List.range t.length,
      (b :: t).getD (t.length + 1 - i - 1) 0 * 2 ^ i = t.getD (t.length - i - 1) 0 * 2 ^ i := by
    intro i hi
    have hilt := List.mem_range.mp hi
    have e : t.length + 1 - i - 1 = (t.length - i - 1) + 1 := by omega
    rw [e, List.getD_cons_succ]
  rw [List.map_congr_left h1]
  simp only [List.map_cons, List.map_nil, List.sum_cons, List.sum_nil, add_zero]
  have e2 : t.length + 1 - t.length - 1 = 0 := by omega
  rw [e2, List.getD_cons_zero]
  ring

lemma btd_nonneg_lt (l : List ℤ) (hb : ∀ b ∈ l, b = 0 ∨ b = 1) :
    0 ≤ binary_to_decimal l ∧ binary_to_decimal l < 2 ^ l.length := by
  induction l with
  | nil => simp [binary_to_decimal]
  | cons b t ih =>
    have hbt : ∀ x ∈ t, x = 0 ∨ x = 1 := fun x hx => hb x (List.mem_cons_of_mem b hx)
    obtain ⟨ih0, ih1⟩ := ih hbt
    have hbb := hb b (List.mem_cons_self b t)
    have hm : (0 : ℤ) < 2 ^ t.length := by positivity
    have h2 : (2 : ℤ) ^ (t.length + 1) = 2 * 2 ^ t.length := by ring
    rw [btd_cons]
    simp only [List.length_cons, h2]
    rcases hbb with rfl | rfl
    · simp only [zero_mul, zero_add]
      omega
    · simp only [one_mul]
      omega

lemma msb_fold_acc (l : List ℕ) : ∀ a : ℕ,
    l.foldl (fun x b => 2 * x + b) a = a * 2 ^ l.length + l.foldl (fun x b => 2 * x + b) 0 := by
  induction l with
  | nil => intro a; simp
  | cons b t ih =>
    intro a
    simp only [List.foldl_cons, List.length_cons, Nat.mul_zero, Nat.zero_add]
    rw [ih (2 * a + b), ih b]
    ring

lemma msb_cons (b : ℕ) (t : List ℕ) :
    msb_first_value (b :: t) = b * 2 ^ t.length + msb_first_value t := by
  unfold msb_first_value
  simp only [List.foldl_cons]
  rw [msb_fold_acc t (2 * 0 + b)]
  ring_nf

lemma btd_eq_msb (l : List ℤ) (hb : ∀ b ∈ l, b = 0 ∨ b = 1) :
    binary_to_decimal l = ((msb_first_value (l.map Int.toNat) : ℕ) : ℤ) := by
  induction l with
  | nil => simp [binary_to_decimal, msb_first_value]
  | cons b t ih =>
    have hbt : ∀ x ∈ t, x = 0 ∨ x = 1 := fun x hx => hb x (List.mem_cons_of_mem b hx)
    have hbb := hb b (List.mem_cons_self b t)
    rw [btd_cons, List.map_cons, msb_cons, ih hbt, List.length_map]
    push_cast
    rcases hbb with rfl | rfl <;> simp

lemma gather_ok (sol : List ℤ) : ∀ idxs : List ℕ, (∀ j ∈ idxs, j < sol.length) →
    gather sol idxs = Except.ok (idxs.map (fun j => sol.getD j 0))
  | [], _ => rfl
  | j :: rest, h => by
    simp only [gather]
    rw [if_pos (h j (List.mem_cons_self j rest)),
      gather_ok sol rest (fun x hx => h x (List.mem_cons_of_mem j hx))]
    rfl

lemma rolled_perm (deps : List ℕ) (i : ℕ) : (rolled_indicies deps i).Perm deps := by
  unfold rolled_indicies
  have h : deps.take (deps.indexOf i) ++ deps.drop (deps.indexOf i) = deps :=
    List.take_append_drop _ deps
  refine List.perm_append_comm.trans ?_
  rw [h]

lemma deps_mem_lt (row : List ℤ) (j : ℕ) (hj : j ∈ dependency_indicies row) :
    j < row.length := by
  unfold dependency_indicies at hj
  rw [List.mem_filter] at hj
  exact List.mem_range.mp hj.1

lemma deps_self_mem (row : List ℤ) (i : ℕ) (hi : i < row.length)
    (hdiag : row.getD i 0 = 1) : i ∈ dependency_indicies row := by
  unfold dependency_indicies
  rw [List.mem_filter]
  exact ⟨List.mem_range.mpr hi, by simpa using hdiag⟩

lemma sum_eq_getD_range : ∀ l : List ℤ,
    l.sum = ((List.range l.length).map (fun j => l.getD j 0)).sum
  | [] => by simp
  | a :: t => by
    rw [List.length_cons, List.range_succ_eq_map, List.map_cons, List.sum_cons,
      List.getD_cons_zero, List.map_map]
    have h : ∀ j ∈ List.range t.length,
        ((fun j => (a :: t).getD j 0) ∘ Nat.succ) j = t.getD j 0 := by
      intro j _
      simp [Function.comp, List.getD_cons_succ]
    rw [List.map_congr_left h, List.sum_cons, ← sum_eq_getD_range t]

lemma filter_length_ite (n : ℕ) (P : ℕ → Prop) [DecidablePred P] :
    (((List.range n).filter (fun j => decide (P j))).length : ℤ)
      = ((List.range n).map (fun j => if P j then (1 : ℤ) else 0)).sum := by
  induction n with
  | zero => simp
  | succ n ih =>
    rw [List.range_succ, List.filter_append, List.map_append, List.length_append,
      List.sum_append]
    by_cases h : P n
    · simp [h, ← ih]
    · simp [h, ← ih]

lemma deps_length_of_sum (row : List ℤ) (K : ℤ) (hb : ∀ x ∈ row, x = 0 ∨ x = 1)
    (hsum : row.sum = K + 1) (h0 : 0 ≤ K) :
    (dependency_indicies row).length = K.toNat + 1 := by
  have h2 : ∀ j ∈ List.range row.length,
      (if row.getD j 0 = 1 then (1 : ℤ) else 0) = row.getD j 0 := by
    intro j hj
    rcases hb _ (getD_mem row j 0 (List.mem_range.mp hj)) with h | h <;> rw [h] <;> norm_num
  have h1 : ((dependency_indicies row).length : ℤ) = row.sum := by
    unfold dependency_indicies
    rw [filter_length_ite row.length (fun j => row.getD j 0 = 1), List.map_congr_left h2,
      ← sum_eq_getD_range]
  omega

lemma contrib_spec (L : Landscape) (sol : List ℤ) (hV : ValidLandscape L)
    (hs : sol.length = L.N) (hb : ∀ b ∈ sol, b = 0 ∨ b = 1) (i : ℕ) (hi : i < L.N) :
    row_decimal L.dependency_matrix sol i
      = Except.ok ((spec_digit L.dependency_matrix sol i : ℕ) : ℤ) ∧
    spec_digit L.dependency_matrix sol i < 2 ^ (L.K + 1).toNat ∧
    calc_contrib L.dependency_matrix L.fitness_mapping sol i
      = Except.ok
          ((L.fitness_mapping.getD i []).getD (spec_digit L.dependency_matrix sol i) 0) := by
  obtain ⟨hK0, hdml, hdmr, hbin, hdiag, hsum, hfml, hfmr⟩ := hV
  have hrmem : L.dependency_matrix.getD i [] ∈ L.dependency_matrix :=
    getD_mem _ i [] (by omega)
  have hrlen : (L.dependency_matrix.getD i []).length = L.N := hdmr _ hrmem
  have hdg : (L.dependency_matrix.getD i []).getD i 0 = 1 := hdiag i (List.mem_range.mpr hi)
  have hiin : i ∈ dependency_indicies (L.dependency_matrix.getD i []) :=
    deps_self_mem _ i (by omega) hdg
  have hperm := rolled_perm (dependency_indicies (L.dependency_matrix.getD i [])) i
  have hlt : ∀ j ∈ rolled_indicies (dependency_indicies (L.dependency_matrix.getD i [])) i,
      j < sol.length := by
    intro j hj
    have := deps_mem_lt _ j (hperm.mem_iff.mp hj)
    omega
  have hgather := gather_ok sol _ hlt
  have hsubbits : ∀ b ∈ (rolled_indicies (dependency_indicies
      (L.dependency_matrix.getD i [])) i).map (fun j => sol.getD j 0), b = 0 ∨ b = 1 := by
    intro b hbm
    rw [List.mem_map] at hbm
    obtain ⟨j, hj, rfl⟩ := hbm
    exact hb _ (getD_mem sol j 0 (hlt j hj))
  have hsublen : ((rolled_indicies (dependency_indicies
      (L.dependency_matrix.getD i [])) i).map (fun j => sol.getD j 0)).length
      = L.K.toNat + 1 := by
    rw [List.length_map, hperm.length_eq]
    exact deps_length_of_sum _ L.K (hbin _ hrmem) (hsum _ hrmem) hK0
  have hd := btd_eq_msb _ hsubbits
  have hbounds := btd_nonneg_lt _ hsubbits
  have hsd : spec_digit L.dependency_matrix sol i
      = msb_first_value (((rolled_indicies (dependency_indicies
          (L.dependency_matrix.getD i [])) i).map (fun j => sol.getD j 0)).map Int.toNat) := by
    rw [spec_digit, spec_rotated, List.map_map]
    rfl
  have hKt : (L.K + 1).toNat = L.K.toNat + 1 := by omega
  have hrd : row_decimal L.dependency_matrix sol i
      = Except.ok ((spec_digit L.dependency_matrix sol i : ℕ) : ℤ) := by
    unfold row_decimal
    rw [if_pos (by omega : i < L.dependency_matrix.length), if_pos hiin, hgather]
    simp only [Except.map]
    rw [hd, ← hsd]
  have hbound : spec_digit L.dependency_matrix sol i < 2 ^ (L.K + 1).toNat := by
    have h2 := hbounds.2
    rw [hd, hsublen] at h2
    have h3 : msb_first_value (((rolled_indicies (dependency_indicies
        (L.dependency_matrix.getD i [])) i).map (fun j => sol.getD j 0)).map Int.toNat)
        < 2 ^ (L.K.toNat + 1) := by exact_mod_cast h2
    rw [hKt, hsd]
    exact h3
  refine ⟨hrd, hbound, ?_⟩
  have hfrow : (L.fitness_mapping.getD i []).length = 2 ^ (L.K + 1).toNat :=
    hfmr _ (getD_mem _ i [] (by omega))
  unfold calc_contrib
  rw [hrd]
  show (if i < L.fitness_mapping.length then _ else _) = _
  rw [if_pos (by omega : i < L.fitness_mapping.length)]
  unfold np_getitem
  rw [if_pos (by positivity : (0 : ℤ) ≤ ((spec_digit L.dependency_matrix sol i : ℕ) : ℤ)),
    Int.toNat_natCast, if_pos (by rw [hfrow]; exact hbound)]

lemma calc_loop_ok (dm : MatZ) (fm : MatF) (sol : List ℤ) (g : ℕ → ℚ) :
    ∀ l : List ℕ, (∀ i ∈ l, calc_contrib dm fm sol i = Except.ok (g i)) →
      ∀ acc : ℚ, calc_loop dm fm sol l acc = Except.ok (acc + (l.map g).sum)
  | [], _, acc => by simp [calc_loop]
  | i :: rest, h, acc => by
    simp only [calc_loop]
    rw [h i (List.mem_cons_self i rest)]
    show calc_loop dm fm sol rest (acc + g i) = _
    rw [calc_loop_ok dm fm sol g rest (fun x hx => h x (List.mem_cons_of_mem i hx)) (acc + g i)]
    simp only [List.map_cons, List.sum_cons]
    rw [add_assoc]

/-! ## Claim theorems -/

/-- C1: the claim says that for a K=0 landscape, validating a supplied
dependency matrix with total sum ≠ N fails with `ValueError`, the check
reading the instance's own `K`.  In the source the check reads an undefined
bare name `K`, so the concrete K=0 construction below — whose supplied
matrix passes the shape, binary and trace tests and has total sum 3 ≠ 2 —
raises `NameError`, not `ValueError`: the code contradicts the claim. -/
theorem C1_k0_sum_check_raises_nameerror :
    init (some 2) (some 0) (some [[1, 1], [0, 1]]) (some [[0, 0], [0, 0]]) rngZero
      = Except.error (PyErr.nameError "name K is not defined") := by decide

/-- C3: the claim says a failed `set_dependency_matrix` leaves the previous
valid matrix unchanged.  In the source the assignment happens before
validation: starting from the valid landscape `LZ` (produced by `init`),
setting the invalid matrix `[[2]]` raises (wrong shape), yet the stored
dependency matrix afterwards is `[[2]]`, not the previous identity — the
mutation is not all-or-nothing. -/
theorem C3_setter_assigns_before_validating :
    init (some 2) (some 0) none (some [[0, 0], [0, 0]]) rngZero = Except.ok LZ ∧
    (set_dependency_matrix LZ [[2]]).2
      = Except.error (PyErr.valueError "The dependency matrix must be of shape (N, N)") ∧
    (set_dependency_matrix LZ [[2]]).1.dependency_matrix = [[2]] ∧
    ¬ LZ.dependency_matrix = [[2]] := by decide

/-- C4 counterexample: the claim says construction with any N×N matrix
containing an entry that is not 0 or 1 fails with `ValueError`, never
silently coercing.  The 2×2 matrix below contains the entry 1/2, which is
neither 0 nor 1, yet `astype(int)` silently truncates it to 0 before
validation; the binary-entry test then passes and construction fails with
`NameError` (the undefined-`K` bug), not `ValueError`. -/
theorem C4_half_entry_not_valueerror :
    init (some 2) (some 1) (some [[1, mkRat 1 2], [1, 1]]) (some [[0, 0, 0, 0], [0, 0, 0, 0]])
      rngZero = Except.error (PyErr.nameError "name K is not defined") := by decide

/-- C4 amended: construction truncates supplied entries toward zero
(`astype(int)`) before validating; whenever some entry truncates to a value
other than 0 or 1, construction fails with the binary-entries `ValueError`.
(An entry such as 1/2 that truncates into {0,1} is silently coerced
instead.) -/
theorem C4_truncated_nonbinary_valueerror (N : ℕ) (K : ℤ) (dm : MatF) (fm? : Option MatF)
    (rng : ℕ → ℕ → ℚ) (hK : K < N) (hrows : dm.length = N) (hcols : ∀ r ∈ dm, r.length = N)
    (hbad : ∃ r ∈ dm, ∃ x ∈ r, pyIntCast x ≠ 0 ∧ pyIntCast x ≠ 1) :
    init (some N) (some K) (some dm) fm? rng
      = Except.error
          (PyErr.valueError "The dependency matrix must only contain binary values") := by
  have hA : (astypeInt dm).length = N ∧ ∀ r ∈ astypeInt dm, r.length = N := by
    constructor
    · simpa [astypeInt] using hrows
    · intro r hr
      simp only [astypeInt, List.mem_map] at hr
      obtain ⟨r0, hr0, rfl⟩ := hr
      simpa using hcols r0 hr0
  have hB : ¬ (∀ r ∈ astypeInt dm, ∀ x ∈ r, x = 0 ∨ x = 1) := by
    obtain ⟨r, hr, x, hx, h0, h1⟩ := hbad
    intro hall
    have hrm : r.map pyIntCast ∈ astypeInt dm := List.mem_map_of_mem _ hr
    have := hall (r.map pyIntCast) hrm (pyIntCast x) (List.mem_map_of_mem _ hx)
    rcases this with h | h
    · exact h0 h
    · exact h1 h
  have hcheck : check_dependency_matrix N (astypeInt dm)
      = Except.error
          (PyErr.valueError "The dependency matrix must only contain binary values") := by
    unfold check_dependency_matrix
    rw [if_neg (not_not_intro hA), if_pos hB]
  simp only [init]
  rw [if_neg (by omega), hcheck]

/-- C5 counterexample: the claim says construction rejects negative K.
`init` with N=2, K=-1 succeeds (only `K >= N` is tested in the source), and
even the default fitness mapping is built, with shape (2, 2^0) = (2, 1). -/
theorem C5_negative_K_accepted :
    init (some 2) (some (-1)) none none rngZero
      = Except.ok ⟨2, -1, [[1, 0], [0, 1]], [[0], [0]]⟩ := by decide

/-- C5 amended: for every positive N, construction accepts K = N-1, rejects
K = N with the range `ValueError`, but does NOT reject negative K:
construction with K = -1 succeeds. -/
theorem C5_K_boundaries (N : ℕ) (rng : ℕ → ℕ → ℚ) (hN : 0 < N) :
    (∃ L, init (some N) (some ((N : ℤ) - 1)) none none rng = Except.ok L) ∧
    init (some N) (some (N : ℤ)) none none rng
      = Except.error (PyErr.valueError "K must be less than N") ∧
    (∃ L, init (some N) (some (-1)) none none rng = Except.ok L) := by
  refine ⟨⟨⟨N, (N : ℤ) - 1, construct_sequential_dependency_matrix N ((N : ℤ) - 1),
      mkMatQ N (2 ^ (((N : ℤ) - 1) + 1).toNat) rng⟩, ?_⟩, ?_,
    ⟨⟨N, -1, construct_sequential_dependency_matrix N (-1),
      mkMatQ N (2 ^ (((-1 : ℤ)) + 1).toNat) rng⟩, ?_⟩⟩
  · simp only [init]
    rw [if_neg (by omega), if_neg (by omega)]
  · simp only [init]
    rw [if_pos (by omega)]
  · simp only [init]
    rw [if_neg (by omega), if_neg (by decide)]

/-- C5 witness: the boundary behaviour at the concrete instance N = 3. -/
theorem C5_K_boundaries_witness :
    (∃ L, init (some 3) (some ((3 : ℤ) - 1)) none none rngZero = Except.ok L) ∧
    init (some 3) (some (3 : ℤ)) none none rngZero
      = Except.error (PyErr.valueError "K must be less than N") ∧
    (∃ L, init (some 3) (some (-1)) none none rngZero = Except.ok L) :=
  C5_K_boundaries 3 rngZero (by decide)

/-- C6: for every valid (N, K) with 0 ≤ K < N, the default sequential
dependency matrix satisfies every validation rule: shape (N, N), all
entries in {0, 1}, trace N, every row summing to K+1, and equality with the
identity matrix when K = 0. -/
theorem C6_default_matrix_valid (N : ℕ) (K : ℤ) (h0 : 0 ≤ K) (hK : K < N) :
    validation_rules N K (construct_sequential_dependency_matrix N K) := by
  have hNpos : 0 < N := by omega
  have hkN : K.toNat < N := by omega
  rw [validation_rules, construct_entry N K h0 hK]
  refine ⟨mkMatZ_length N N _, ?_, ?_, ?_, ?_, ?_⟩
  · intro r hr
    obtain ⟨i, _, rfl⟩ := mkMatZ_mem hr
    simp
  · intro r hr x hx
    obtain ⟨i, _, rfl⟩ := mkMatZ_mem hr
    simp only [List.mem_map] at hx
    obtain ⟨j, _, rfl⟩ := hx
    split_ifs
    · exact Or.inr rfl
    · exact Or.inl rfl
  · unfold traceZ
    rw [mkMatZ_length]
    have hdiag : ∀ i ∈ List.range N,
        (((mkMatZ N N (fun i j => if (j + N - i) % N ≤ K.toNat then (1 : ℤ) else 0)).getD i
          []).getD i 0) = (1 : ℤ) := by
      intro i hi
      have hiN := List.mem_range.mp hi
      rw [mkMatZ_entry N N _ i i hiN hiN]
      have e : i + N - i = N := by omega
      rw [e, Nat.mod_self, if_pos (Nat.zero_le _)]
    rw [List.map_congr_left hdiag, sum_map_one]
  · intro r hr
    obtain ⟨i, hi, rfl⟩ := mkMatZ_mem hr
    rw [list_sum_range_eq, Finset.sum_boole, filter_mod_card N i K.toNat hi hkN]
    omega
  · intro hK0
    subst hK0
    unfold np_identity
    apply mkMatZ_ext
    intro i hi j hj
    rw [mod_dist N i j hi hj]
    split_ifs <;> omega

/-- C6 witness: the default matrix for N = 5, K = 2 satisfies every rule. -/
theorem C6_default_matrix_valid_witness :
    validation_rules 5 2 (construct_sequential_dependency_matrix 5 2) :=
  C6_default_matrix_valid 5 2 (by decide) (by decide)

/-- C7: for N=3, K=1 with the default sequential dependency matrix, the
ascending dependency-index extraction gives {0,1} for row 0, {1,2} for
row 1 and {0,2} for row 2, and rolling row 2's indices so that 2 comes
first yields exactly [2, 0]. -/
theorem C7_n3_k1_rows_and_roll :
    dependency_indicies ((construct_sequential_dependency_matrix 3 1).getD 0 []) = [0, 1] ∧
    dependency_indicies ((construct_sequential_dependency_matrix 3 1).getD 1 []) = [1, 2] ∧
    dependency_indicies ((construct_sequential_dependency_matrix 3 1).getD 2 []) = [0, 2] ∧
    rolled_indicies
      (dependency_indicies ((construct_sequential_dependency_matrix 3 1).getD 2 [])) 2
      = [2, 0] := by decide

/-- C8: `calculate_fitness` is embedded as a pure function of the
dependency matrix, the fitness mapping, N and the solution (the Python
method writes no attribute), so two calls with identical inputs return the
identical value. -/
theorem C8_deterministic (L1 L2 : Landscape) (s1 s2 : List ℤ) (hN : L1.N = L2.N)
    (hdm : L1.dependency_matrix = L2.dependency_matrix)
    (hfm : L1.fitness_mapping = L2.fitness_mapping) (hs : s1 = s2) :
    calculate_fitness L1 s1 = calculate_fitness L2 s2 := by
  unfold calculate_fitness
  rw [hN, hdm, hfm, hs]

/-- C8 witness: repeated evaluation on the concrete landscape `cL`. -/
theorem C8_deterministic_witness :
    calculate_fitness cL [1, 0, 1, 0] = calculate_fitness cL [1, 0, 1, 0] :=
  C8_deterministic cL cL [1, 0, 1, 0] [1, 0, 1, 0] rfl rfl rfl rfl

/-- C9 counterexample: the claim says `generate_solutions` fails with
`ValueError` when `num` is not positive.  `num = 0` is not positive, yet
the call succeeds and returns the empty (0, N) array. -/
theorem C9_zero_num_accepted :
    generate_solutions 2 (some 0) (fun _ _ => 1) = Except.ok [] := rfl

/-- C9 amended: `generate_solutions` returns a (num, N) structure of 0/1
entries for every num ≥ 0 — including num = 0, which yields an empty result
rather than an error; it raises `ValueError` when num is omitted, and numpy
raises `ValueError` for negative num.  Positivity itself is not enforced. -/
theorem C9_generate_solutions_shape (N : ℕ) (num : ℤ) (bits : ℕ → ℕ → Fin 2) :
    generate_solutions N none bits
      = Except.error (PyErr.valueError "The number of solutions must be specified") ∧
    (num < 0 → generate_solutions N (some num) bits
      = Except.error (PyErr.valueError "negative dimensions are not allowed")) ∧
    (0 ≤ num → ∃ sols, generate_solutions N (some num) bits = Except.ok sols ∧
      sols.length = num.toNat ∧ (∀ r ∈ sols, r.length = N) ∧
      (∀ r ∈ sols, ∀ x ∈ r, x = 0 ∨ x = 1)) := by
  refine ⟨rfl, ?_, ?_⟩
  · intro h
    simp only [generate_solutions]
    rw [if_pos h]
  · intro h
    refine ⟨(List.range num.toNat).map
        (fun r => (List.range N).map (fun c => (((bits r c : Fin 2) : ℕ) : ℤ))), ?_, ?_, ?_, ?_⟩
    · simp only [generate_solutions]
      rw [if_neg (by omega)]
    · simp
    · intro r hr
      simp only [List.mem_map] at hr
      obtain ⟨a, _, rfl⟩ := hr
      simp
    · intro r hr x hx
      simp only [List.mem_map] at hr
      obtain ⟨a, _, rfl⟩ := hr
      simp only [List.mem_map] at hx
      obtain ⟨c, _, rfl⟩ := hx
      have := (bits a c).isLt
      omega

/-- C2: for every valid landscape and every length-N binary solution,
`calculate_fitness` returns exactly the sum over positions `i` of
`fitness_mapping[i, d_i]`, where `d_i` is the unsigned MSB-first binary
value of the substring gathered at row `i`'s dependency indices rotated so
that `i` is first (the witness instantiates the N=4, K=0 identity-matrix
scenario with result 4). -/
theorem C2_fitness_formula (L : Landscape) (sol : List ℤ) (hV : ValidLandscape L)
    (hs : sol.length = L.N) (hb : ∀ b ∈ sol, b = 0 ∨ b = 1) :
    calculate_fitness L sol = Except.ok (((List.range L.N).map
      (fun i => (L.fitness_mapping.getD i []).getD
        (spec_digit L.dependency_matrix sol i) 0)).sum) := by
  unfold calculate_fitness
  rw [calc_loop_ok L.dependency_matrix L.fitness_mapping sol
    (fun i => (L.fitness_mapping.getD i []).getD (spec_digit L.dependency_matrix sol i) 0)
    (List.range L.N)
    (fun i hi => (contrib_spec L sol hV hs hb i (List.mem_range.mp hi)).2.2) 0, zero_add]

/-- C2 witness: the spec's concrete scenario, N=4, K=0, identity matrix,
fitness mapping [[0,1],[1,0],[0,1],[1,0]], solution [1,0,1,0], total 4. -/
theorem C2_fitness_formula_witness :
    calculate_fitness cL [1, 0, 1, 0] = Except.ok 4 := by
  rw [C2_fitness_formula cL [1, 0, 1, 0] (by decide) (by decide) (by decide)]
  norm_num [cL, np_identity, mkMatZ, spec_digit, spec_rotated, dependency_indicies,
    rolled_indicies, msb_first_value, List.range_succ]

/-- C10: for every landscape satisfying the validation invariants, with a
fitness mapping of shape (N, 2^(K+1)), and every length-N binary solution,
the decimal index computed inside `calculate_fitness` at each position `i`
satisfies 0 ≤ d < 2^(K+1), so the `fitness_mapping[i, d]` lookup is within
bounds. -/
theorem C10_decimal_in_bounds (L : Landscape) (sol : List ℤ) (i : ℕ) (hV : ValidLandscape L)
    (hs : sol.length = L.N) (hb : ∀ b ∈ sol, b = 0 ∨ b = 1) (hi : i < L.N) :
    ∃ d : ℤ, row_decimal L.dependency_matrix sol i = Except.ok d ∧ 0 ≤ d ∧
      d < 2 ^ (L.K + 1).toNat ∧ d.toNat < (L.fitness_mapping.getD i []).length := by
  have hfml : L.fitness_mapping.length = L.N := hV.2.2.2.2.2.2.1
  have hfmr := hV.2.2.2.2.2.2.2
  obtain ⟨hrd, hbound, _⟩ := contrib_spec L sol hV hs hb i hi
  have hfrow : (L.fitness_mapping.getD i []).length = 2 ^ (L.K + 1).toNat :=
    hfmr _ (getD_mem _ i [] (by omega))
  refine ⟨((spec_digit L.dependency_matrix sol i : ℕ) : ℤ), hrd, by positivity, ?_, ?_⟩
  · exact_mod_cast hbound
  · rw [Int.toNat_natCast, hfrow]
    exact hbound

/-- C10 witness: the in-bounds index at position 2 of the concrete
landscape `cL` with solution [1,0,1,0]. -/
theorem C10_decimal_in_bounds_witness :
    ∃ d : ℤ, row_decimal cL.dependency_matrix [1, 0, 1, 0] 2 = Except.ok d ∧ 0 ≤ d ∧
      d < 2 ^ (cL.K + 1).toNat ∧ d.toNat < (cL.fitness_mapping.getD 2 []).length :=
  C10_decimal_in_bounds cL [1, 0, 1, 0] 2 (by decide) (by decide) (by decide) (by decide)

/-- C4 witness: a 2×2 matrix with the integer entry 2 (whose truncation is
not 0 or 1) is rejected with the binary-entries `ValueError`. -/
theorem C4_truncated_nonbinary_witness :
    init (some 2) (some 1) (some [[2, 0], [0, 1]]) (some [[0, 0, 0, 0], [0, 0, 0, 0]]) rngZero
      = Except.error
          (PyErr.valueError "The dependency matrix must only contain binary values") :=
  C4_truncated_nonbinary_valueerror 2 1 [[2, 0], [0, 1]] (some [[0, 0, 0, 0], [0, 0, 0, 0]])
    rngZero (by decide) (by decide) (by decide) (by decide)

/-- C9 witness: three solutions of length 2 at a concrete bit source. -/
theorem C9_generate_solutions_witness :
    generate_solutions 2 none (fun _ _ => 1)
      = Except.error (PyErr.valueError "The number of solutions must be specified") ∧
    ((3 : ℤ) < 0 → generate_solutions 2 (some 3) (fun _ _ => 1)
      = Except.error (PyErr.valueError "negative dimensions are not allowed")) ∧
    ((0 : ℤ) ≤ 3 → ∃ sols, generate_solutions 2 (some 3) (fun _ _ => 1) = Except.ok sols ∧
      sols.length = (3 : ℤ).toNat ∧ (∀ r ∈ sols, r.length = 2) ∧
      (∀ r ∈ sols, ∀ x ∈ r, x = 0 ∨ x = 1)) :=
  C9_generate_solutions_shape 2 3 (fun _ _ => 1)

end NKSpec
